import Mathlib

/-!
Verification of the AI-Research-Assistant backend core against its design
specification.

The development shallow-embeds the Python backend:

* `backend/agents/planner.py` — the strategy decision function;
* `backend/workflow.py` — the LangGraph orchestration engine (planner,
  retriever, summarizer, evaluator, feedback nodes and the conditional
  retry edge), modelled as node functions over an explicit workflow state
  plus a small-step run relation;
* `backend/agents/retriever.py` and `backend/utils/tavily_utils.py` — the
  web-search adapter with provider fallback, with external provider calls
  modelled as `Except`-valued parameters (an `.error` models a raised
  exception);
* `backend/agents/evaluator.py` — the answer self-critique with its
  JSON-parse fallback heuristic;
* `backend/agents/summarizer.py` — the full-research batch loop;
* `backend/utils/article_utils.py` and `backend/db.py` — content
  addressing (SHA-256 digests, implemented concretely below), chunk-level
  deduplication against the in-memory session store and the durable
  chunks table.

Machine integers are modelled as `Nat` with explicit reduction modulo
2^32 where the SHA-256 arithmetic overflows.  External collaborators
(vector index, language model, web providers, the JSON decoder) are
universally quantified function parameters; a node "not consulting" a
collaborator is expressed as independence of the result from that
parameter.
-/

/-! ### Basic string helpers (Python `str.lower`, `str.strip`, `in`) -/

/-- Python `str.lower`, restricted to the ASCII range that actually occurs in
the configured keywords and queries under test. -/
def strLower (s : String) : String := ⟨s.data.map Char.toLower⟩

/-- Python whitespace test used by `str.strip`. -/
def isPySpace (c : Char) : Bool :=
  c = ' ' || c = '\t' || c = '\n' || c = '\r' || c = '\x0b' || c = '\x0c'

/-- Python `str.strip`: drop leading and trailing whitespace. -/
def strStrip (s : String) : String :=
  ⟨((s.data.dropWhile isPySpace).reverse.dropWhile isPySpace).reverse⟩

/-- `needle` occurs at the head of `hay` (list-of-chars version). -/
def headMatches : List Char → List Char → Bool
  | [], _ => true
  | _ :: _, [] => false
  | a :: as, b :: bs => a = b && headMatches as bs

/-- Python `needle in hay` on strings: contiguous substring occurrence. -/
def subOf (needle : List Char) : List Char → Bool
  | [] => headMatches needle []
  | c :: rest => headMatches needle (c :: rest) || subOf needle rest

/-! ### Configuration defaults (`backend/config.py`) -/

/-- Default of the `RETRIEVAL_MIN_DOCS` environment knob. -/
def RETRIEVAL_MIN_DOCS : Nat := 3

/-- Default of `MIN_ARTICLE_CHARS`. -/
def MIN_ARTICLE_CHARS : Nat := 200

/-- Comma-split of the default `TIME_SENSITIVE_KEYWORDS` value
`"latest,breaking,news,today,this week,recent,update,updated,currently,now,2024,2025,2026"`. -/
def TIME_SENSITIVE_KEYWORDS : List String :=
  ["latest", "breaking", "news", "today", "this week", "recent", "update",
   "updated", "currently", "now", "2024", "2025", "2026"]

/-! ### Planner (`backend/agents/planner.py`) -/

/-- A planner decision `{'mode': ..., 'reason': ...}`. -/
structure Decision where
  mode : String
  reason : String
deriving DecidableEq, Repr

/-- `_contains_time_keyword`: any configured keyword, stripped and lowered,
occurring in the lowered query. -/
def containsTimeKeyword (q : String) : Bool :=
  TIME_SENSITIVE_KEYWORDS.any
    (fun kw => subOf (strLower (strStrip kw)).data (strLower q).data)

namespace Planner

/-- `decide(query, retrieved_count)` from `planner.py`. -/
def decide (query : String) (retrieved_count : Nat) : Decision :=
  if containsTimeKeyword query then ⟨"quick_web", "time_sensitive"⟩
  else if retrieved_count < RETRIEVAL_MIN_DOCS then
    ⟨"quick_web", "insufficient_local_docs"⟩
  else ⟨"local", "sufficient_local_docs"⟩

end Planner

example : Planner.decide "What is the latest news on inflation?" 5 =
    ⟨"quick_web", "time_sensitive"⟩ := by decide

example : Planner.decide "tell me about rome" 100 =
    ⟨"local", "sufficient_local_docs"⟩ := by decide

example : Planner.decide "tell me about rome" 2 =
    ⟨"quick_web", "insufficient_local_docs"⟩ := by decide

/-! ### Workflow state (`backend/workflow.py`, `WorkflowState` TypedDict)

`TypedDict(total=False)` fields are all optional, so every field is an
`Option`; a LangGraph node returns a partial update (a state whose `none`
fields are "key absent") which is merged into the current state. -/

/-- LangChain `Document.metadata` entries used by the backend. -/
structure DocMeta where
  session_id : Option String := none
  doc_id : Option String := none
  url : Option String := none
  title : Option String := none
  position : Option Nat := none
  doc_type : Option String := none
  chunk_id : Option String := none
deriving DecidableEq, Repr

/-- A LangChain `Document`. -/
structure Doc where
  page_content : String
  metadata : DocMeta := {}
deriving DecidableEq, Repr

/-- A web-search hit dict `{title, url, content}`; a `none` field models an
absent key. -/
structure Hit where
  title : Option String := none
  url : Option String := none
  content : Option String := none
deriving DecidableEq, Repr

/-- Result of `evaluate_answer`: `{'ok': bool, 'confidence': float, 'notes': str}`.
The confidence values produced by the code are exact decimal literals, so the
float is modelled as a rational. -/
structure EvalResult where
  ok : Bool
  confidence : Rat
  notes : String
deriving DecidableEq, Repr

/-- An entry of the evaluator's `sources` list. -/
structure SourceRef where
  doc_id : Option String
  url : Option String
deriving DecidableEq, Repr

/-- A `per_article` entry built by `run_full_research`. -/
structure PerArticle where
  doc_id : String
  url : String
  summary : String
deriving DecidableEq, Repr

/-- The workflow state mapping. -/
structure WorkflowState where
  mode : Option String := none
  session_id : Option String := none
  query : Option String := none
  topic : Option String := none
  urls : Option (List String) := none
  history : Option (List (String × String)) := none
  decision : Option Decision := none
  retrieved_docs_preview : Option (List Doc) := none
  retrieved_docs : Option (List Doc) := none
  web_results : Option (List Hit) := none
  per_article : Option (List PerArticle) := none
  overall_summary : Option String := none
  answer : Option String := none
  confidence : Option Rat := none
  evaluation : Option EvalResult := none
  sources : Option (List SourceRef) := none
  retry_count : Option Nat := none
deriving DecidableEq, Repr

/-- LangGraph merge of a node's partial update `u` into the state `s`:
a key present in the update overwrites, an absent key is kept. -/
def mergeState (s u : WorkflowState) : WorkflowState where
  mode := u.mode <|> s.mode
  session_id := u.session_id <|> s.session_id
  query := u.query <|> s.query
  topic := u.topic <|> s.topic
  urls := u.urls <|> s.urls
  history := u.history <|> s.history
  decision := u.decision <|> s.decision
  retrieved_docs_preview := u.retrieved_docs_preview <|> s.retrieved_docs_preview
  retrieved_docs := u.retrieved_docs <|> s.retrieved_docs
  web_results := u.web_results <|> s.web_results
  per_article := u.per_article <|> s.per_article
  overall_summary := u.overall_summary <|> s.overall_summary
  answer := u.answer <|> s.answer
  confidence := u.confidence <|> s.confidence
  evaluation := u.evaluation <|> s.evaluation
  sources := u.sources <|> s.sources
  retry_count := u.retry_count <|> s.retry_count

/-- Merging the empty update (a node returning `{}`) leaves the state
unchanged. -/
theorem mergeState_empty (s : WorkflowState) : mergeState s {} = s := by
  cases s; simp [mergeState]

/-- `_normalize`: the effective query (`query`, falling back to `topic`,
falling back to the empty string; Python truthiness treats `""` as absent). -/
def normQuery (s : WorkflowState) : String :=
  let q := s.query.getD ""
  if q = "" then s.topic.getD "" else q

/-- `_normalize`: the effective mode, defaulting to `"chat"`. -/
def normMode (s : WorkflowState) : String :=
  let m := s.mode.getD ""
  if m = "" then "chat" else m

/-- `state.get("session_id", "")`. -/
def normSid (s : WorkflowState) : String := s.session_id.getD ""

/-! ### Engine nodes (`create_workflow` in `backend/workflow.py`)

External calls made by a node are lifted to parameters of the node
function: `retrieved` is the result of the planner's `retrieve_docs` call
(already `[]` on a caught exception), `fetch` the `fetch_url_text`
results, `webResults` the `web_search(q) or []` result, `freshLocal` the
retriever's fallback `retrieve_docs` result, `answerText` the
`answer_from_docs` language-model answer and `evalRes` the
`evaluate_answer` result. -/

/-- The retry ceiling `MAX_FEEDBACK_RETRIES`. -/
def MAX_FEEDBACK_RETRIES : Nat := 2

/-- `planner_node`. -/
def planner_node (retrieved : List Doc) (s : WorkflowState) : WorkflowState :=
  if normMode s = "research" then
    { decision := some ⟨"full_research", "explicit research"⟩ }
  else
    { decision := some (Planner.decide (normQuery s) retrieved.length),
      retrieved_docs_preview := some retrieved }

/-- `retriever_node`. -/
def retriever_node (fetch : String → String) (webResults : List Hit)
    (freshLocal : List Doc) (s : WorkflowState) : WorkflowState :=
  let decision_mode := match s.decision with
    | some d => d.mode
    | none => "local"
  if decision_mode = "quick_web" ∨ decision_mode = "full_research" then
    if decision_mode = "full_research" ∧ s.urls.getD [] ≠ [] then
      let hits := (s.urls.getD []).filterMap (fun u =>
        let content := fetch u
        if content = "" then none
        else some { title := some "", url := some u, content := some content })
      { web_results := some hits }
    else
      let results := webResults
      if decision_mode = "quick_web" ∧ results ≠ [] then
        let docs := results.filterMap (fun r =>
          let content := r.content.getD ""
          if content = "" then none
          else some { page_content := content,
                      metadata := { url := some (r.url.getD ""),
                                    title := some (r.title.getD ""),
                                    session_id := some (normSid s) } })
        if docs ≠ [] then
          { web_results := some results, retrieved_docs := some docs }
        else { web_results := some results }
      else { web_results := some results }
  else
    let docs := match s.retrieved_docs_preview with
      | some d => d
      | none => freshLocal
    { retrieved_docs := some docs }

/-- `summarizer_node`; `research` is the `run_full_research` output
(per-article list, overall summary text) of the call the node would make. -/
def summarizer_node (research : List PerArticle × String) (s : WorkflowState) :
    WorkflowState :=
  let decision_mode : Option String := match s.decision with
    | some d => some d.mode
    | none => none
  if decision_mode = some "full_research" ∧ s.web_results.getD [] ≠ [] then
    { per_article := some research.1, overall_summary := some research.2 }
  else {}

/-- `evaluator_node`. -/
def evaluator_node (answerText : String) (evalRes : EvalResult)
    (s : WorkflowState) : WorkflowState :=
  let docs := s.retrieved_docs.getD []
  if docs = [] then {}
  else
    { answer := some answerText,
      confidence := some evalRes.confidence,
      evaluation := some evalRes,
      sources := some (docs.map (fun d => ⟨d.metadata.doc_id, d.metadata.url⟩)) }

/-- `feedback_node`. -/
def feedback_node (s : WorkflowState) : WorkflowState :=
  { retry_count := some (s.retry_count.getD 0 + 1),
    decision := some ⟨"quick_web", "low_confidence_retry"⟩ }

/-- `should_end_from_evaluator`. -/
def should_end_from_evaluator (s : WorkflowState) : Bool :=
  let ok := match s.evaluation with
    | some e => e.ok
    | none => true
  if ok then true else decide (MAX_FEEDBACK_RETRIES ≤ s.retry_count.getD 0)

/-- The `ok = (state.get("evaluation") or {}).get("ok", True)` read in
`should_end_from_evaluator`. -/
def evalOkFlag (s : WorkflowState) : Bool :=
  match s.evaluation with
  | some e => e.ok
  | none => true

theorem should_end_eq (s : WorkflowState) :
    should_end_from_evaluator s =
      (if evalOkFlag s then true
       else decide (MAX_FEEDBACK_RETRIES ≤ s.retry_count.getD 0)) := rfl

/-! ### The chat-mode run relation

LangGraph fires `planner`, then `retriever`, then the superstep containing
`summarizer` (a no-op whenever the decision is not full-research) and
`evaluator`, then either terminates or fires `feedback` and loops back to
`retriever`.  Each step existentially chooses the results of the node's
external calls; in `StepAllFalse` the evaluator steps are restricted to
runs in which every produced evaluation reports `ok = false`. -/

/-- Engine node phases (plus the terminal pseudo-phase). -/
inductive EnginePhase
  | planner | retriever | summarizer | evaluator | feedback | terminal
deriving DecidableEq, Repr

/-- An engine configuration: node about to fire, current merged state. -/
abbrev EngineConfig := EnginePhase × WorkflowState

/-- One engine step of a chat-mode run in which every evaluation produced at
an evaluating step reports `ok = false`. -/
inductive StepAllFalse : EngineConfig → EngineConfig → Prop
  | planner_step (s : WorkflowState) (retrieved : List Doc) :
      StepAllFalse (EnginePhase.planner, s)
        (EnginePhase.retriever, mergeState s (planner_node retrieved s))
  | retriever_step (s : WorkflowState) (fetch : String → String)
      (webResults : List Hit) (freshLocal : List Doc) :
      StepAllFalse (EnginePhase.retriever, s)
        (EnginePhase.summarizer,
          mergeState s (retriever_node fetch webResults freshLocal s))
  | summarizer_step (s : WorkflowState) (research : List PerArticle × String) :
      StepAllFalse (EnginePhase.summarizer, s)
        (EnginePhase.evaluator, mergeState s (summarizer_node research s))
  | eval_end (s : WorkflowState) (a : String) (e : EvalResult)
      (hok : e.ok = false)
      (hend : should_end_from_evaluator (mergeState s (evaluator_node a e s)) = true) :
      StepAllFalse (EnginePhase.evaluator, s)
        (EnginePhase.terminal, mergeState s (evaluator_node a e s))
  | eval_retry (s : WorkflowState) (a : String) (e : EvalResult)
      (hok : e.ok = false)
      (hend : should_end_from_evaluator (mergeState s (evaluator_node a e s)) = false) :
      StepAllFalse (EnginePhase.evaluator, s)
        (EnginePhase.feedback, mergeState s (evaluator_node a e s))
  | feedback_step (s : WorkflowState) :
      StepAllFalse (EnginePhase.feedback, s)
        (EnginePhase.retriever, mergeState s (feedback_node s))

/-- Weight of a configuration for counting feedback-node executions. -/
def fbWeight (c : EngineConfig) : Nat :=
  if c.1 = EnginePhase.feedback then 1 else 0

/-- Reachability from the initial configuration, counting visits to the
feedback node along the way. -/
inductive ReachAllFalse (s₀ : WorkflowState) : EngineConfig → Nat → Prop
  | init : ReachAllFalse s₀ (EnginePhase.planner, s₀) 0
  | step {c c' : EngineConfig} {k : Nat} :
      ReachAllFalse s₀ c k → StepAllFalse c c' →
      ReachAllFalse s₀ c' (k + fbWeight c')

theorem planner_node_retry (r : List Doc) (s : WorkflowState) :
    (planner_node r s).retry_count = none := by
  unfold planner_node; split <;> rfl

theorem retriever_node_retry (fetch : String → String) (w : List Hit)
    (f : List Doc) (s : WorkflowState) :
    (retriever_node fetch w f s).retry_count = none := by
  simp only [retriever_node]
  repeat' split
  all_goals rfl

theorem summarizer_node_retry (research : List PerArticle × String)
    (s : WorkflowState) : (summarizer_node research s).retry_count = none := by
  simp only [summarizer_node]
  repeat' split
  all_goals rfl

theorem evaluator_node_retry (a : String) (e : EvalResult) (s : WorkflowState) :
    (evaluator_node a e s).retry_count = none := by
  simp only [evaluator_node]
  repeat' split
  all_goals rfl

theorem mergeState_retry_none {u : WorkflowState} (s : WorkflowState)
    (h : u.retry_count = none) :
    (mergeState s u).retry_count = s.retry_count := by
  simp [mergeState, h]

/-- Run invariant: away from the feedback node the retry counter equals the
number of feedback executions so far (and that number is at most 2); at the
feedback node the counter is one behind and strictly below the ceiling. -/
theorem reach_retry_invariant {s₀ : WorkflowState} (h₀ : s₀.retry_count = none)
    {c : EngineConfig} {k : Nat} (h : ReachAllFalse s₀ c k) :
    (c.1 ≠ EnginePhase.feedback → c.2.retry_count.getD 0 = k ∧ k ≤ 2) ∧
    (c.1 = EnginePhase.feedback →
      c.2.retry_count.getD 0 + 1 = k ∧ c.2.retry_count.getD 0 < 2) := by
  induction h with
  | init => simp [h₀]
  | step hr hs ih =>
    cases hs with
    | planner_step s r =>
      have hp := (ih.1 (by simp)).1
      have hk := (ih.1 (by simp)).2
      constructor
      · intro _
        rw [mergeState_retry_none s (planner_node_retry r s)]
        simp [fbWeight]
        exact ⟨hp, hk⟩
      · intro hcontra; simp [fbWeight] at hcontra
    | retriever_step s fetch w f =>
      have hp := (ih.1 (by simp)).1
      have hk := (ih.1 (by simp)).2
      constructor
      · intro _
        rw [mergeState_retry_none s (retriever_node_retry fetch w f s)]
        simp [fbWeight]
        exact ⟨hp, hk⟩
      · intro hcontra; simp [fbWeight] at hcontra
    | summarizer_step s research =>
      have hp := (ih.1 (by simp)).1
      have hk := (ih.1 (by simp)).2
      constructor
      · intro _
        rw [mergeState_retry_none s (summarizer_node_retry research s)]
        simp [fbWeight]
        exact ⟨hp, hk⟩
      · intro hcontra; simp [fbWeight] at hcontra
    | eval_end s a e hok hend =>
      have hp := (ih.1 (by simp)).1
      have hk := (ih.1 (by simp)).2
      constructor
      · intro _
        rw [mergeState_retry_none s (evaluator_node_retry a e s)]
        simp [fbWeight]
        exact ⟨hp, hk⟩
      · intro hcontra; simp [fbWeight] at hcontra
    | eval_retry s a e hok hend =>
      have hp := (ih.1 (by simp)).1
      have hmerge := mergeState_retry_none s (evaluator_node_retry a e s)
      rw [should_end_eq] at hend
      have hlt : (mergeState s (evaluator_node a e s)).retry_count.getD 0 < 2 := by
        by_contra hge
        push_neg at hge
        have : decide (MAX_FEEDBACK_RETRIES ≤
            (mergeState s (evaluator_node a e s)).retry_count.getD 0) = true := by
          simpa [MAX_FEEDBACK_RETRIES] using hge
        rcases hb : evalOkFlag (mergeState s (evaluator_node a e s)) with _ | _ <;>
          simp [hb, this] at hend
      constructor
      · intro hcontra; simp [fbWeight] at hcontra
      · intro _
        refine ⟨?_, hlt⟩
        rw [hmerge, hp]
        simp [fbWeight]
    | feedback_step s =>
      have hfb : s.retry_count.getD 0 + 1 = _ ∧ s.retry_count.getD 0 < 2 :=
        ih.2 (by simp)
      constructor
      · intro _
        have : (mergeState s (feedback_node s)).retry_count =
            some (s.retry_count.getD 0 + 1) := by
          simp [mergeState, feedback_node]
        rw [this]
        simp [fbWeight]
        omega
      · intro hcontra; simp [fbWeight] at hcontra

/-- Claim C1: in a chat-mode run whose every produced evaluation reports
`ok = false`, the feedback node is executed at most 2 times; the evaluator
terminates exactly when the recorded evaluation is ok (absent defaulting to
ok) or the retry counter has reached the ceiling `MAX_FEEDBACK_RETRIES = 2`;
and each feedback execution increments the retry counter by exactly 1. -/
theorem chat_retry_bound :
    (∀ (s₀ : WorkflowState) (c : EngineConfig) (k : Nat),
        s₀.mode = some "chat" → s₀.retry_count = none →
        ReachAllFalse s₀ c k → k ≤ 2) ∧
    (∀ s : WorkflowState, should_end_from_evaluator s = true ↔
        (evalOkFlag s = true ∨ MAX_FEEDBACK_RETRIES ≤ s.retry_count.getD 0)) ∧
    (∀ s : WorkflowState,
        (mergeState s (feedback_node s)).retry_count =
          some (s.retry_count.getD 0 + 1)) := by
  refine ⟨?_, ?_, ?_⟩
  · intro s₀ c k _ h₀ h
    have hinv := reach_retry_invariant h₀ h
    by_cases hc : c.1 = EnginePhase.feedback
    · have := hinv.2 hc
      omega
    · exact (hinv.1 hc).2
  · intro s
    rw [should_end_eq]
    rcases hb : evalOkFlag s with _ | _ <;> simp [hb]
  · intro s
    simp [mergeState, feedback_node]

/-- Witness for C1 at a concrete initial chat state. -/
theorem chat_retry_bound_witness :
    (0 : Nat) ≤ 2 ∧
      (mergeState {} (feedback_node {})).retry_count = some 1 := by
  constructor
  · exact chat_retry_bound.1 { mode := some "chat" }
      (EnginePhase.planner, { mode := some "chat" }) 0 rfl rfl ReachAllFalse.init
  · have h := chat_retry_bound.2.2 ({} : WorkflowState)
    simpa using h

/-- Claim C2 (amended): on a research-mode request the planner always
decides strategy `full_research` with reason `"explicit research"`, produces
no other field, and the decision is independent of the local retrieval
result — local sufficiency is never consulted. -/
theorem planner_research_decision (s : WorkflowState) (r₁ r₂ : List Doc)
    (h : normMode s = "research") :
    planner_node r₁ s =
      { decision := some ⟨"full_research", "explicit research"⟩ } ∧
    planner_node r₁ s = planner_node r₂ s := by
  constructor <;> simp [planner_node, h]

/-- Witness for C2 at a concrete research-mode state. -/
theorem planner_research_decision_witness :
    planner_node [] { mode := some "research" } =
      { decision := some ⟨"full_research", "explicit research"⟩ } ∧
    planner_node [] { mode := some "research" } =
      planner_node [{ page_content := "d" }] { mode := some "research" } :=
  planner_research_decision { mode := some "research" } []
    [{ page_content := "d" }] (by decide)

/-- Claim C2 as stated is false on the code: the reason string attached to a
research-mode decision is `"explicit research"`, not `"explicit request"`. -/
theorem planner_research_reason_counterexample :
    (planner_node [] { mode := some "research", query := some "q" }).decision =
      some ⟨"full_research", "explicit research"⟩ ∧
    (planner_node [] { mode := some "research", query := some "q" }).decision ≠
      some ⟨"full_research", "explicit request"⟩ := by
  constructor <;> decide

/-- Claim C3: `decide` follows the fixed priority order — a time-sensitive
keyword forces quick_web regardless of the count; otherwise a count below
`RETRIEVAL_MIN_DOCS` gives quick_web for insufficient local docs; otherwise
the decision is local. -/
theorem decide_priority (q : String) (n : Nat) :
    (containsTimeKeyword q = true →
      Planner.decide q n = ⟨"quick_web", "time_sensitive"⟩) ∧
    (containsTimeKeyword q = false → n < RETRIEVAL_MIN_DOCS →
      Planner.decide q n = ⟨"quick_web", "insufficient_local_docs"⟩) ∧
    (containsTimeKeyword q = false → RETRIEVAL_MIN_DOCS ≤ n →
      Planner.decide q n = ⟨"local", "sufficient_local_docs"⟩) := by
  refine ⟨fun h => ?_, fun h hn => ?_, fun h hn => ?_⟩
  · simp [Planner.decide, h]
  · simp [Planner.decide, h, hn]
  · simp [Planner.decide, h]
    omega

/-- Witness for C3: a time-sensitive query forces quick_web even at local
count 100; a keyword-free query with count 100 stays local. -/
theorem decide_priority_witness :
    Planner.decide "What is the latest news on inflation?" 100 =
      ⟨"quick_web", "time_sensitive"⟩ ∧
    Planner.decide "tell me about rome" 100 =
      ⟨"local", "sufficient_local_docs"⟩ :=
  ⟨(decide_priority "What is the latest news on inflation?" 100).1 (by decide),
   (decide_priority "tell me about rome" 100).2.2 (by decide) (by decide)⟩

/-! ### The caller-visible answer (`backend/routers/chat.py`) -/

/-- `result.get("answer", "I could not generate an answer.")` in the `/chat`
endpoint. -/
def chatAnswer (res : WorkflowState) : String :=
  res.answer.getD "I could not generate an answer."

/-- Claim C6: when the retrieving stage produced zero documents (and hence no
evaluation or answer has been recorded), the evaluator node returns the empty
update — the merged state is unchanged, the result is independent of the
language-model answer and evaluation (no model call matters), the
conditional edge sends the engine to the terminal state, the terminal state
carries no answer, and the caller-visible answer is the fixed message. -/
theorem evaluator_noop_on_empty (s : WorkflowState) (a₁ a₂ : String)
    (e₁ e₂ : EvalResult)
    (hdocs : s.retrieved_docs.getD [] = [])
    (heval : s.evaluation = none) (hans : s.answer = none) :
    evaluator_node a₁ e₁ s = {} ∧
    mergeState s (evaluator_node a₁ e₁ s) = s ∧
    evaluator_node a₁ e₁ s = evaluator_node a₂ e₂ s ∧
    should_end_from_evaluator (mergeState s (evaluator_node a₁ e₁ s)) = true ∧
    (mergeState s (evaluator_node a₁ e₁ s)).answer = none ∧
    chatAnswer (mergeState s (evaluator_node a₁ e₁ s)) =
      "I could not generate an answer." := by
  have h1 : evaluator_node a₁ e₁ s = {} := by
    simp [evaluator_node, hdocs]
  have h2 : evaluator_node a₂ e₂ s = {} := by
    simp [evaluator_node, hdocs]
  have hm : mergeState s (evaluator_node a₁ e₁ s) = s := by
    rw [h1, mergeState_empty]
  refine ⟨h1, hm, h1.trans h2.symm, ?_, ?_, ?_⟩
  · rw [hm, should_end_eq]
    simp [evalOkFlag, heval]
  · rw [hm, hans]
  · rw [hm, chatAnswer, hans]
    rfl

/-- Witness for C6 at the empty workflow state. -/
theorem evaluator_noop_on_empty_witness :
    evaluator_node "a" ⟨true, 1, ""⟩ {} = {} ∧
    mergeState {} (evaluator_node "a" ⟨true, 1, ""⟩ {}) = {} ∧
    evaluator_node "a" ⟨true, 1, ""⟩ {} = evaluator_node "b" ⟨false, 0, "n"⟩ {} ∧
    should_end_from_evaluator (mergeState {} (evaluator_node "a" ⟨true, 1, ""⟩ {})) = true ∧
    (mergeState {} (evaluator_node "a" ⟨true, 1, ""⟩ {})).answer = none ∧
    chatAnswer (mergeState {} (evaluator_node "a" ⟨true, 1, ""⟩ {})) =
      "I could not generate an answer." :=
  evaluator_noop_on_empty {} "a" "b" ⟨true, 1, ""⟩ ⟨false, 0, "n"⟩ rfl rfl rfl

/-! ### Web search adapter (`backend/utils/tavily_utils.py` and
`web_search` in `backend/agents/retriever.py`)

External provider calls are `Except`-valued parameters: `.error ()` models
the call raising an exception, `.ok rs` models it returning the raw result
sequence.  `tavily_quick_answers` performs its provider call with no
exception handler, so a raised error propagates; both stages of
`duckduckgo_fallback` are wrapped in handlers. -/

/-- A raw Tavily result dict. -/
structure TavilyRaw where
  title : Option String := none
  url : Option String := none
  content : Option String := none
deriving DecidableEq, Repr

/-- A raw DDGS text-search result dict. -/
structure DdgRaw where
  href : Option String := none
  url : Option String := none
  link : Option String := none
  title : Option String := none
deriving DecidableEq, Repr

/-- An anchor scraped by the HTML fallback. -/
structure HtmlAnchor where
  href : Option String := none
  text : String := ""
deriving DecidableEq, Repr

/-- Python `a or b` on optional strings (`None` and `""` are falsy). -/
def pyOrStr (a b : Option String) : Option String :=
  if a.getD "" = "" then b else a

/-- Python truthiness of an optional string. -/
def strTruthy (a : Option String) : Bool := a.getD "" ≠ ""

/-- `href.startswith("http")`. -/
def startsWithHttp (h : String) : Bool := headMatches "http".data h.data

/-- The DDGS collection loop of `duckduckgo_fallback` (break after an append
once `max_results` is reached). -/
def ddgCollect (max_results : Nat) : List DdgRaw → List Hit → List Hit
  | [], acc => acc
  | r :: rest, acc =>
    let href := pyOrStr r.href (pyOrStr r.url r.link)
    let title := (pyOrStr r.title (some "")).getD ""
    if strTruthy href ∧ startsWithHttp (href.getD "") then
      let acc' := acc ++ [{ title := some title, url := some (href.getD "") }]
      if max_results ≤ acc'.length then acc' else ddgCollect max_results rest acc'
    else ddgCollect max_results rest acc

/-- The HTML-scrape collection loop of `duckduckgo_fallback` (the break
check runs on every iteration). -/
def htmlCollect (max_results : Nat) : List HtmlAnchor → List Hit → List Hit
  | [], acc => acc
  | a :: rest, acc =>
    let acc' := if strTruthy a.href ∧ startsWithHttp (a.href.getD "") then
        acc ++ [{ title := some a.text, url := some (a.href.getD "") }]
      else acc
    if max_results ≤ acc'.length then acc' else htmlCollect max_results rest acc'

/-- `duckduckgo_fallback`: empty when `USE_TAVILY_ONLY`; otherwise the DDGS
loop, every exception of which falls back to the HTML scrape, every
exception of which yields the empty list. -/
def duckduckgo_fallback (useTavilyOnly : Bool)
    (ddgCall : Except Unit (List DdgRaw))
    (htmlCall : Except Unit (List HtmlAnchor))
    (_query : String) (max_results : Nat) : List Hit :=
  if useTavilyOnly then []
  else
    match ddgCall with
    | Except.ok rs => ddgCollect max_results rs []
    | Except.error _ =>
      match htmlCall with
      | Except.ok anchors => htmlCollect max_results anchors []
      | Except.error _ => []

/-- `tavily_quick_answers`: `[]` when the client is unconfigured; otherwise
the provider call's results are shaped — with no exception handler, so a
raised error propagates to the caller. -/
def tavily_quick_answers (tavilyConfigured : Bool)
    (searchCall : Except Unit (List TavilyRaw))
    (_query : String) (_max_results : Nat) : Except Unit (List Hit) :=
  if ¬ tavilyConfigured then Except.ok []
  else
    searchCall.map (fun rs => rs.map (fun r =>
      { title := some (r.title.getD ""), url := some (r.url.getD ""),
        content := some (r.content.getD "") }))

/-- `web_search` from `retriever.py`: primary first, secondary on an empty
primary result. -/
def web_search (tavilyConfigured useTavilyOnly : Bool)
    (searchCall : Except Unit (List TavilyRaw))
    (ddgCall : Except Unit (List DdgRaw))
    (htmlCall : Except Unit (List HtmlAnchor))
    (query : String) (max_results : Nat) : Except Unit (List Hit) :=
  match tavily_quick_answers tavilyConfigured searchCall query max_results with
  | Except.error e => Except.error e
  | Except.ok hits =>
    if hits ≠ [] then Except.ok hits
    else Except.ok (duckduckgo_fallback useTavilyOnly ddgCall htmlCall query max_results)

/-- Claim C5 as stated is false on the code: when the Tavily client is
configured and its `search` call raises, `tavily_quick_answers` has no
exception handler, so `web_search` raises to its caller. -/
theorem web_search_raises_counterexample :
    web_search true false (Except.error ()) (Except.ok []) (Except.ok [])
      "anything" 4 = Except.error () := by
  rfl

/-- Claim C5 (amended): provided the primary provider call itself does not
raise (it is unconfigured or returns), `web_search` never raises; when the
primary yields no results the result is exactly the secondary's; the
secondary is empty when not permitted; and a secondary whose both stages
fail yields the empty sequence. -/
theorem web_search_no_raise (tc uto : Bool) (sc : Except Unit (List TavilyRaw))
    (dc : Except Unit (List DdgRaw)) (hc : Except Unit (List HtmlAnchor))
    (q : String) (mr : Nat)
    (hprim : tc = false ∨ ∃ rs, sc = Except.ok rs) :
    (∃ l, web_search tc uto sc dc hc q mr = Except.ok l) ∧
    (tavily_quick_answers tc sc q mr = Except.ok [] →
      web_search tc uto sc dc hc q mr =
        Except.ok (duckduckgo_fallback uto dc hc q mr)) ∧
    (uto = true → duckduckgo_fallback uto dc hc q mr = []) ∧
    (duckduckgo_fallback uto (Except.error ()) (Except.error ()) q mr = []) := by
  have hok : ∃ l, tavily_quick_answers tc sc q mr = Except.ok l := by
    rcases hprim with h | ⟨rs, h⟩
    · subst h; exact ⟨[], rfl⟩
    · subst h
      unfold tavily_quick_answers
      split
      · exact ⟨[], rfl⟩
      · exact ⟨_, rfl⟩
  obtain ⟨l, hl⟩ := hok
  have hchar : web_search tc uto sc dc hc q mr =
      if l = [] then Except.ok (duckduckgo_fallback uto dc hc q mr)
      else Except.ok l := by
    unfold web_search
    rw [hl]
    by_cases h : l = [] <;> simp [h]
  refine ⟨?_, ?_, ?_, ?_⟩
  · rw [hchar]
    by_cases h : l = [] <;> simp [h]
  · intro hempty
    rw [hl] at hempty
    injection hempty with hnil
    rw [hchar, hnil]
    simp
  · intro h
    subst h
    simp [duckduckgo_fallback]
  · by_cases h : uto <;> simp [duckduckgo_fallback, h]

/-- Witness for C5: unconfigured primary, permitted secondary whose both
stages fail → empty sequence, no exception. -/
theorem web_search_no_raise_witness :
    (∃ l, web_search false false (Except.error ()) (Except.error ())
        (Except.error ()) "q" 4 = Except.ok l) ∧
    (tavily_quick_answers false (Except.error ()) "q" 4 = Except.ok [] →
      web_search false false (Except.error ()) (Except.error ())
          (Except.error ()) "q" 4 =
        Except.ok (duckduckgo_fallback false (Except.error ())
          (Except.error ()) "q" 4)) ∧
    (False = True → duckduckgo_fallback false (Except.error ())
        (Except.error ()) "q" 4 = []) ∧
    (duckduckgo_fallback false (Except.error ()) (Except.error ()) "q" 4 = []) := by
  have h := web_search_no_raise false false (Except.error ())
    (Except.error ()) (Except.error ()) "q" 4 (Or.inl rfl)
  exact ⟨h.1, h.2.1, fun hft => h.2.2.1 (by simp at hft), h.2.2.2⟩

/-! ### Evaluator self-critique (`evaluate_answer` in
`backend/agents/evaluator.py`)

The language-model call is an `Except`-valued parameter (`.error ()` models
a raised exception, caught by the function's handler).  The JSON decoding
and field coercion (`json.loads`, `parsed.get(...)`, `bool(...)`,
`float(...)`) are modelled by one oracle `parseEval` applied to the regex
match `\{.*\}` (first `{` through last `}`, DOTALL); `none` models any
raised decode/coercion error, which the handler also converts into the
heuristic fallback. -/

/-- The apostrophe character (U+0027). -/
def apos : Char := Char.ofNat 39

/-- The affirmative marker `i'm confident` checked by the heuristic. -/
def imConfidentMarker : String := "i" ++ String.mk [apos] ++ "m confident"

/-- The fallback heuristic of `evaluate_answer`: inspects the lowered draft
answer text for an affirmative marker. -/
def heuristicEval (answer : String) : EvalResult :=
  let lower := strLower answer
  let ok := subOf "yes".data lower.data || subOf "true".data lower.data ||
    subOf imConfidentMarker.data lower.data
  { ok := ok, confidence := if ok then 0.6 else 0.2,
    notes := "Could not parse LLM JSON; used heuristic." }

/-- The DOTALL regex `\{.*\}` matches iff some opening brace is followed by
a later closing brace. -/
def hasBraceSpan : List Char → Bool
  | [] => false
  | c :: rest => if c = '{' then rest.contains '}' else hasBraceSpan rest

/-- The text of the regex match: first opening brace through last closing
brace. -/
def braceSpan (text : List Char) : List Char :=
  let fromBrace := text.dropWhile (fun c => ! (c == '{'))
  (fromBrace.reverse.dropWhile (fun c => ! (c == '}'))).reverse

/-- `evaluate_answer(answer, question)` with the model reply and the JSON
decode lifted to parameters. -/
def evaluate_answer (parseEval : String → Option EvalResult)
    (llmReply : Except Unit String) (answer _question : String) : EvalResult :=
  match llmReply with
  | Except.error _ => heuristicEval answer
  | Except.ok text =>
    if hasBraceSpan text.data then
      match parseEval (String.mk (braceSpan text.data)) with
      | some r => r
      | none => heuristicEval answer
    else heuristicEval answer

/-- The model reply of the spec's scenario. -/
def confidentReply : String :=
  "I" ++ String.mk [apos] ++ "m confident the answer is correct."

/-- Claim C7 as stated is false on the code: the heuristic inspects the
draft answer, not the model reply, so receiving the non-JSON reply
`I'm confident the answer is correct.` over a marker-free draft answer
yields `ok = false` with confidence 0.2, not `ok = true` with 0.6. -/
theorem evaluate_answer_reply_counterexample :
    evaluate_answer (fun _ => none) (Except.ok confidentReply)
        "The capital of France is Paris." "What is the capital of France?" =
      { ok := false, confidence := 0.2,
        notes := "Could not parse LLM JSON; used heuristic." } := by
  rfl

/-- Claim C7 (amended): whenever the model call raises, the reply contains
no `{...}` span, or the JSON decode fails, `evaluate_answer` returns the
well-formed heuristic result computed from the DRAFT ANSWER: ok is true
exactly when the lowered draft answer contains an affirmative marker
(`yes`, `true`, or `i'm confident`), confidence is 0.6 if ok else 0.2, and
the notes record the parse failure.  In particular a draft answer that
itself says `I'm confident ...` yields ok = true with confidence 0.6. -/
theorem evaluate_answer_fallback (parseEval : String → Option EvalResult)
    (llmReply : Except Unit String) (answer question : String)
    (hfail : llmReply = Except.error () ∨
      (∃ text, llmReply = Except.ok text ∧ hasBraceSpan text.data = false) ∨
      (∃ text, llmReply = Except.ok text ∧
        parseEval (String.mk (braceSpan text.data)) = none)) :
    evaluate_answer parseEval llmReply answer question = heuristicEval answer ∧
    (heuristicEval answer).ok =
      (subOf "yes".data (strLower answer).data ||
        subOf "true".data (strLower answer).data ||
        subOf imConfidentMarker.data (strLower answer).data) ∧
    (heuristicEval answer).confidence =
      (if (heuristicEval answer).ok then (0.6 : Rat) else 0.2) ∧
    (heuristicEval answer).notes = "Could not parse LLM JSON; used heuristic." := by
  refine ⟨?_, rfl, ?_, rfl⟩
  · rcases hfail with h | ⟨text, h, hspan⟩ | ⟨text, h, hparse⟩
    · subst h; rfl
    · subst h
      simp [evaluate_answer, hspan]
    · subst h
      by_cases hspan : hasBraceSpan text.data <;>
        simp [evaluate_answer, hspan, hparse]
  · rfl

/-- Witness for C7: a brace-free reply over a draft answer containing the
affirmative marker falls back to the heuristic with ok = true. -/
theorem evaluate_answer_fallback_witness :
    evaluate_answer (fun _ => none) (Except.ok "no json here") confidentReply
        "q" = heuristicEval confidentReply ∧
    (heuristicEval confidentReply).ok =
      (subOf "yes".data (strLower confidentReply).data ||
        subOf "true".data (strLower confidentReply).data ||
        subOf imConfidentMarker.data (strLower confidentReply).data) ∧
    (heuristicEval confidentReply).confidence =
      (if (heuristicEval confidentReply).ok then (0.6 : Rat) else 0.2) ∧
    (heuristicEval confidentReply).notes =
      "Could not parse LLM JSON; used heuristic." :=
  evaluate_answer_fallback (fun _ => none) (Except.ok "no json here")
    confidentReply "q" (Or.inr (Or.inl ⟨"no json here", rfl, by decide⟩))

/-! ### SHA-256 (`hashlib.sha256`, used by `backend/utils/article_utils.py`)

A concrete executable implementation of FIPS 180-4 SHA-256 over byte lists
(`Nat` bytes, word arithmetic reduced modulo `2^32`), together with the
UTF-8 encoding that `str.encode("utf-8")` applies first.  Validated below
against the standard test vectors. -/

/-- `2^32`. -/
def M32 : Nat := 4294967296

/-- 32-bit addition. -/
def add32 (a b : Nat) : Nat := (a + b) % M32

/-- 32-bit right rotation. -/
def rotr32 (n x : Nat) : Nat :=
  ((x >>> n) ||| ((x % M32) <<< (32 - n))) % M32

/-- Three-way xor. -/
def xor3 (a b c : Nat) : Nat := (a ^^^ b) ^^^ c

/-- SHA-256 `Ch` (the complement taken within 32 bits). -/
def shaCh (x y z : Nat) : Nat := (x &&& y) ^^^ ((x ^^^ (M32 - 1)) &&& z)

/-- SHA-256 `Maj`. -/
def shaMaj (x y z : Nat) : Nat := ((x &&& y) ^^^ (x &&& z)) ^^^ (y &&& z)

/-- SHA-256 `Σ₀`. -/
def bigSigma0 (x : Nat) : Nat := xor3 (rotr32 2 x) (rotr32 13 x) (rotr32 22 x)

/-- SHA-256 `Σ₁`. -/
def bigSigma1 (x : Nat) : Nat := xor3 (rotr32 6 x) (rotr32 11 x) (rotr32 25 x)

/-- SHA-256 `σ₀`. -/
def smallSigma0 (x : Nat) : Nat := xor3 (rotr32 7 x) (rotr32 18 x) (x >>> 3)

/-- SHA-256 `σ₁`. -/
def smallSigma1 (x : Nat) : Nat := xor3 (rotr32 17 x) (rotr32 19 x) (x >>> 10)

/-- The 64 SHA-256 round constants of FIPS 180-4 (decimal). -/
def K256 : List Nat :=
  [1116352408, 1899447441, 3049323471,
   3921009573, 961987163, 1508970993,
   2453635748, 2870763221, 3624381080,
   310598401, 607225278, 1426881987,
   1925078388, 2162078206, 2614888103,
   3248222580, 3835390401, 4022224774,
   264347078, 604807628, 770255983,
   1249150122, 1555081692, 1996064986,
   2554220882, 2821834349, 2952996808,
   3210313671, 3336571891, 3584528711,
   113926993, 338241895, 666307205,
   773529912, 1294757372, 1396182291,
   1695183700, 1986661051, 2177026350,
   2456956037, 2730485921, 2820302411,
   3259730800, 3345764771, 3516065817,
   3600352804, 4094571909, 275423344,
   430227734, 506948616, 659060556,
   883997877, 958139571, 1322822218,
   1537002063, 1747873779, 1955562222,
   2024104815, 2227730452, 2361852424,
   2428436474, 2756734187, 3204031479,
   3329325298]

/-- The eight 32-bit working variables. -/
structure Hash8 where
  a : Nat
  b : Nat
  c : Nat
  d : Nat
  e : Nat
  f : Nat
  g : Nat
  hh : Nat
deriving DecidableEq, Repr

/-- The SHA-256 initial hash value of FIPS 180-4 (decimal). -/
def sha256Init : Hash8 :=
  ⟨1779033703, 3144134277, 1013904242, 2773480762,
   1359893119, 2600822924, 528734635, 1541459225⟩

/-- One compression round, consuming a `(k, w)` pair. -/
def shaRound (st : Hash8) (kw : Nat × Nat) : Hash8 :=
  let t1 := (st.hh + bigSigma1 st.e + shaCh st.e st.f st.g + kw.1 + kw.2) % M32
  let t2 := (bigSigma0 st.a + shaMaj st.a st.b st.c) % M32
  ⟨(t1 + t2) % M32, st.a, st.b, st.c, (st.d + t1) % M32, st.e, st.f, st.g⟩

/-- Extend the 16-word message schedule by `n` further words. -/
def extendSched : Nat → List Nat → List Nat
  | 0, ws => ws
  | n + 1, ws =>
    let i := ws.length
    let w := (smallSigma1 (ws.getD (i - 2) 0) + ws.getD (i - 7) 0 +
        smallSigma0 (ws.getD (i - 15) 0) + ws.getD (i - 16) 0) % M32
    extendSched n (ws ++ [w])

/-- The full 64-word message schedule. -/
def sched (ws : List Nat) : List Nat := extendSched 48 ws

/-- Big-endian 4-byte groups to 32-bit words. -/
def bytesToWords : List Nat → List Nat
  | b0 :: b1 :: b2 :: b3 :: rest =>
    (((b0 <<< 24) ||| (b1 <<< 16) ||| (b2 <<< 8) ||| b3) % M32) ::
      bytesToWords rest
  | _ => []

/-- Compress one 64-byte block into the running hash value. -/
def shaCompress (st : Hash8) (block : List Nat) : Hash8 :=
  let ws := sched (bytesToWords block)
  let t := (K256.zip ws).foldl shaRound st
  ⟨add32 st.a t.a, add32 st.b t.b, add32 st.c t.c, add32 st.d t.d,
   add32 st.e t.e, add32 st.f t.f, add32 st.g t.g, add32 st.hh t.hh⟩

/-- The 8-byte big-endian message length (in bits). -/
def lenBytes64 (n : Nat) : List Nat :=
  [(n >>> 56) % 256, (n >>> 48) % 256, (n >>> 40) % 256, (n >>> 32) % 256,
   (n >>> 24) % 256, (n >>> 16) % 256, (n >>> 8) % 256, n % 256]

/-- SHA-256 padding: `0x80`, zeros to 56 mod 64, then the bit length. -/
def padMsg (ms : List Nat) : List Nat :=
  let l := ms.length
  let zeros := (64 + 56 - ((l + 1) % 64)) % 64
  ms ++ 128 :: (List.replicate zeros 0 ++ lenBytes64 (l * 8))

/-- Split a padded message into 64-byte blocks (structural recursion on a
fuel bound by the length, so the kernel can evaluate it). -/
def toBlocksAux : Nat → List Nat → List (List Nat)
  | 0, _ => []
  | _ + 1, [] => []
  | fuel + 1, l => l.take 64 :: toBlocksAux fuel (l.drop 64)

/-- Split a padded message into 64-byte blocks. -/
def toBlocks (l : List Nat) : List (List Nat) := toBlocksAux l.length l

/-- The SHA-256 digest of a byte list, as its eight 32-bit words. -/
def sha256Words (msg : List Nat) : List Nat :=
  let fin := (toBlocks (padMsg msg)).foldl shaCompress sha256Init
  [fin.a, fin.b, fin.c, fin.d, fin.e, fin.f, fin.g, fin.hh]

/-- A hex digit character. -/
def hexDigitChar (n : Nat) : Char := "0123456789abcdef".data.getD n (Char.ofNat 48)

/-- A 32-bit word as its eight hex digits. -/
def wordHex (w : Nat) : List Char :=
  [hexDigitChar ((w >>> 28) % 16), hexDigitChar ((w >>> 24) % 16),
   hexDigitChar ((w >>> 20) % 16), hexDigitChar ((w >>> 16) % 16),
   hexDigitChar ((w >>> 12) % 16), hexDigitChar ((w >>> 8) % 16),
   hexDigitChar ((w >>> 4) % 16), hexDigitChar (w % 16)]

/-- `hexdigest()`: the 64 hex characters of a digest. -/
def sha256HexChars (msg : List Nat) : List Char :=
  ((sha256Words msg).map wordHex).flatten

/-- UTF-8 encoding of one character. -/
def utf8Char (c : Char) : List Nat :=
  let n := c.toNat
  if n < 128 then [n]
  else if n < 2048 then [192 ||| (n >>> 6), 128 ||| (n &&& 63)]
  else if n < 65536 then
    [224 ||| (n >>> 12), 128 ||| ((n >>> 6) &&& 63), 128 ||| (n &&& 63)]
  else
    [240 ||| (n >>> 18), 128 ||| ((n >>> 12) &&& 63),
     128 ||| ((n >>> 6) &&& 63), 128 ||| (n &&& 63)]

/-- `s.encode("utf-8")`. -/
def utf8Bytes (s : String) : List Nat := (s.data.map utf8Char).flatten

/-- `hashlib.sha256(s.encode("utf-8")).hexdigest()`. -/
def sha256HexOfString (s : String) : String := ⟨sha256HexChars (utf8Bytes s)⟩

example : sha256HexOfString "" =
    "e3b0c44298fc1c149afbf4c8996fb92427ae41e4649b934ca495991b7852b855" := by
  rfl

example : sha256HexOfString "abc" =
    "ba7816bf8f01cfea414140de5dae2223b00361a396177a9cb410ff61f20015ad" := by
  rfl

/-! ### Content addressing (`backend/utils/article_utils.py`) -/

/-- Two strings with equal character data are equal. -/
theorem string_data_eq {s t : String} (h : s.data = t.data) : s = t := by
  cases s; cases t; exact congrArg String.mk h

/-- The digest preimage of `stable_doc_id`:
`base = (url or "") + "::" + (title or "")`. -/
def docIdBase (url title : String) : String := url ++ "::" ++ title

/-- `stable_doc_id(url, title="")`: the first 32 hex characters of the
SHA-256 of the base string. -/
def stable_doc_id (url : String) (title : String := "") : String :=
  ⟨(sha256HexChars (utf8Bytes (docIdBase url title))).take 32⟩

example : stable_doc_id "https://a.com" "T1" =
    "fcb7f9ccafe93a391fcd6b9f7c7579f5" := by rfl

/-- `re.sub(r"\s+", " ", ·)`: collapse each whitespace run to one space
(structural recursion on a fuel bound by the length, so the kernel can
evaluate it). -/
def collapseWsAux : Nat → List Char → List Char
  | 0, _ => []
  | _ + 1, [] => []
  | fuel + 1, c :: rest =>
    if isPySpace c then ' ' :: collapseWsAux fuel (rest.dropWhile isPySpace)
    else c :: collapseWsAux fuel rest

/-- Collapse whitespace runs to single spaces. -/
def collapseWs (l : List Char) : List Char := collapseWsAux l.length l

/-- `_normalize_text_for_hash`: strip, then collapse whitespace runs. -/
def normalize_text_for_hash (t : String) : String :=
  ⟨collapseWs (strStrip t).data⟩

/-- The digest preimage of `_chunk_id_from_content`:
`normalized chunk text + "::" + doc_id + "::" + str(position)`. -/
def chunkIdBase (chunk_text doc_id : String) (position : Nat) : String :=
  normalize_text_for_hash chunk_text ++ "::" ++ doc_id ++ "::" ++ toString position

/-- `_chunk_id_from_content`: the first 32 hex characters of the SHA-256 of
the chunk base string. -/
def chunk_id_from_content (chunk_text doc_id : String) (position : Nat) : String :=
  ⟨(sha256HexChars (utf8Bytes (chunkIdBase chunk_text doc_id position))).take 32⟩

/-- Claim C9 (amended): `stable_doc_id` is deterministic and fixed-length
(32 hex characters); changing the title alone, or the url alone, changes
the digest preimage (so the id changes whenever the truncated digest does
not collide).  It is however not injective on (url, title) pairs: the
`"::"` separator is ambiguous, so changing url and title simultaneously can
reproduce the same preimage and hence the identical id. -/
theorem stable_doc_id_spec :
    (∀ url title : String, stable_doc_id url title = stable_doc_id url title) ∧
    (∀ url title : String, (stable_doc_id url title).length = 32) ∧
    (∀ url t₁ t₂ : String, t₁ ≠ t₂ → docIdBase url t₁ ≠ docIdBase url t₂) ∧
    (∀ title u₁ u₂ : String, u₁ ≠ u₂ → docIdBase u₁ title ≠ docIdBase u₂ title) := by
  refine ⟨fun _ _ => rfl, fun _ _ => rfl, ?_, ?_⟩
  · intro url t₁ t₂ hne heq
    apply hne
    have h := congrArg String.data heq
    simp only [docIdBase, String.data_append, List.append_assoc] at h
    exact string_data_eq (List.append_cancel_left (List.append_cancel_left h))
  · intro title u₁ u₂ hne heq
    apply hne
    have h := congrArg String.data heq
    simp only [docIdBase, String.data_append, List.append_assoc] at h
    exact string_data_eq (List.append_cancel_right h)

/-- Witness for C9 at concrete urls and titles. -/
theorem stable_doc_id_spec_witness :
    stable_doc_id "https://a.com" "T1" = stable_doc_id "https://a.com" "T1" ∧
    (stable_doc_id "https://a.com" "T1").length = 32 ∧
    docIdBase "https://a.com" "T1" ≠ docIdBase "https://a.com" "T2" ∧
    docIdBase "https://a.com" "T1" ≠ docIdBase "https://b.com" "T1" :=
  ⟨stable_doc_id_spec.1 "https://a.com" "T1",
   stable_doc_id_spec.2.1 "https://a.com" "T1",
   stable_doc_id_spec.2.2.1 "https://a.com" "T1" "T2" (by decide),
   stable_doc_id_spec.2.2.2 "T1" "https://a.com" "https://b.com" (by decide)⟩

/-- Claim C9 as stated is false on the code: the separator `"::"` is
ambiguous, so the distinct pairs `("x::", "")` and `("x", "::")` — with
both url and title changed — produce the identical document id. -/
theorem stable_doc_id_collision_counterexample :
    stable_doc_id "x::" "" = stable_doc_id "x" "::" ∧
    ("x::" : String) ≠ "x" ∧ ("" : String) ≠ "::" :=
  ⟨rfl, by decide, by decide⟩

/-! ### Durable chunk store (`backend/db.py`) -/

/-- A row of the `chunks` table.  (`created_at` is a wall-clock timestamp
with no role in any claim and is omitted from the embedding.) -/
structure ChunkRecord where
  chunk_id : String
  doc_id : String
  session_id : String
  url : String
  position : Nat
deriving DecidableEq, Repr

/-- The `chunks` table: `chunk_id TEXT PRIMARY KEY`. -/
abbrev ChunksTable := List ChunkRecord

/-- Primary-key presence: some row already carries this `chunk_id`. -/
def chunkIdPresent (tbl : ChunksTable) (cid : String) : Bool :=
  tbl.any (fun r => r.chunk_id == cid)

/-- `insert_chunk_record`: a plain INSERT; the `sqlite3.IntegrityError`
raised on a `chunk_id` primary-key conflict is caught and ignored, leaving
the table unchanged. -/
def insert_chunk_record (tbl : ChunksTable) (cid did sid url : String)
    (position : Nat) : ChunksTable :=
  if chunkIdPresent tbl cid then tbl
  else tbl ++ [⟨cid, did, sid, url, position⟩]

/-- `chunk_exists_for_session`: `WHERE chunk_id=? AND session_id=?`. -/
def chunk_exists_for_session (tbl : ChunksTable) (cid sid : String) : Bool :=
  tbl.any (fun r => r.chunk_id == cid && r.session_id == sid)

/-- Claim C10: the durable store keys records by `chunk_id` alone.  If some
row already carries the `chunk_id`, `insert_chunk_record` — even under a
different session — leaves the table unchanged and raises no error (the
function is total), so the session-scoped existence check for a second
session remains false after the attempted insert. -/
theorem insert_chunk_keyed_by_chunk_id (tbl : ChunksTable)
    (cid did sid₂ url : String) (pos : Nat)
    (hpresent : chunkIdPresent tbl cid = true) :
    insert_chunk_record tbl cid did sid₂ url pos = tbl ∧
    (chunk_exists_for_session tbl cid sid₂ = false →
      chunk_exists_for_session (insert_chunk_record tbl cid did sid₂ url pos)
        cid sid₂ = false) := by
  have h1 : insert_chunk_record tbl cid did sid₂ url pos = tbl := by
    simp [insert_chunk_record, hpresent]
  exact ⟨h1, fun h => by rw [h1]; exact h⟩

/-- Witness for C10: a chunk recorded for session `s1` stays solely under
`s1` after an attempted insert under `s2`. -/
theorem insert_chunk_keyed_by_chunk_id_witness :
    insert_chunk_record [⟨"c1", "d", "s1", "u", 0⟩] "c1" "d" "s2" "u" 0 =
      [⟨"c1", "d", "s1", "u", 0⟩] ∧
    (chunk_exists_for_session [⟨"c1", "d", "s1", "u", 0⟩] "c1" "s2" = false →
      chunk_exists_for_session
        (insert_chunk_record [⟨"c1", "d", "s1", "u", 0⟩] "c1" "d" "s2" "u" 0)
        "c1" "s2" = false) :=
  insert_chunk_keyed_by_chunk_id [⟨"c1", "d", "s1", "u", 0⟩] "c1" "d" "s2" "u" 0
    (by decide)

/-! ### In-memory session store and ingestion
(`summarize_article` in `backend/utils/article_utils.py`)

The module imports `sessions` from `utils.sessions_store`, a file absent
from the source tree.  Modelled from the spec: an "implicit global session
registry (a process-wide mutable session map)"; the ingestion path uses
only the per-session `chunk_ids` set, created on demand by `setdefault`,
so the model keeps exactly that: an association list from session id to
the set (as a duplicate-free-enough list) of chunk ids already ingested. -/

/-- Modelled from the spec: the process-wide `sessions` map, restricted to
the `chunk_ids` field consulted and updated by `summarize_article`. -/
abbrev SessMap := List (String × List String)

/-- `sessions[sid]` (the chunk-id set), if the session is registered. -/
def sessLookup (m : SessMap) (sid : String) : Option (List String) :=
  (m.find? (fun p => p.1 == sid)).map (fun p => p.2)

/-- `session_id in sessions`. -/
def sessHasSession (m : SessMap) (sid : String) : Bool :=
  (sessLookup m sid).isSome

/-- `chunk_id in sessions[session_id].get("chunk_ids", set())` (false when
the session is unregistered). -/
def sessHasChunk (m : SessMap) (sid cid : String) : Bool :=
  match sessLookup m sid with
  | some ids => ids.contains cid
  | none => false

/-- Set-insert of a chunk id into one session entry, when it matches. -/
def sessAddEntry (sid cid : String) (p : String × List String) :
    String × List String :=
  if p.1 == sid then (if p.2.contains cid then p else (p.1, cid :: p.2))
  else p

/-- `sessions[session_id].setdefault("chunk_ids", set()).add(chunk_id)`:
set-insert into the registered session's chunk-id set. -/
def sessAddChunk (m : SessMap) (sid cid : String) : SessMap :=
  m.map (sessAddEntry sid cid)

/-- The three stores an ingestion touches: the vector index (an append-only
sequence of added documents), the durable chunks table, and the in-memory
session map. -/
structure IngestState where
  vector : List Doc
  table : ChunksTable
  sessions : SessMap
deriving DecidableEq, Repr

/-- The accumulator of `summarize_article`'s chunk loop: the (mutated)
session map, `docs_to_add` and `added_chunk_ids`. -/
structure ChunkLoopAcc where
  sessions : SessMap
  docs_to_add : List Doc
  added_chunk_ids : List (String × Nat)
deriving DecidableEq, Repr

/-- The per-chunk dedup loop of `summarize_article`: in-memory check first,
then the session-scoped durable check (which back-fills the in-memory set),
else stage the chunk for insertion. -/
def chunkDedupLoop (doc_id url session_id : String) (table : ChunksTable) :
    List (Nat × String) → ChunkLoopAcc → ChunkLoopAcc
  | [], acc => acc
  | (idx, chunk) :: rest, acc =>
    let cid := chunk_id_from_content chunk doc_id idx
    if sessHasSession acc.sessions session_id &&
        sessHasChunk acc.sessions session_id cid then
      chunkDedupLoop doc_id url session_id table rest acc
    else if chunk_exists_for_session table cid session_id then
      chunkDedupLoop doc_id url session_id table rest
        { acc with sessions :=
            if sessHasSession acc.sessions session_id then
              sessAddChunk acc.sessions session_id cid
            else acc.sessions }
    else
      chunkDedupLoop doc_id url session_id table rest
        { acc with
            docs_to_add := acc.docs_to_add ++
              [{ page_content := chunk,
                 metadata := { session_id := some session_id,
                               doc_id := some doc_id, url := some url,
                               position := some idx,
                               doc_type := some "article_chunk",
                               chunk_id := some cid } }],
            added_chunk_ids := acc.added_chunk_ids ++ [(cid, idx)] }

/-- The post-loop recording of `summarize_article`: for each staged chunk,
`insert_chunk_record` then the in-memory update (guarded by
`session_id in sessions`). -/
def recordAddedChunks (doc_id session_id url : String) :
    List (String × Nat) → ChunksTable → SessMap → ChunksTable × SessMap
  | [], tbl, sess => (tbl, sess)
  | (cid, pos) :: rest, tbl, sess =>
    recordAddedChunks doc_id session_id url rest
      (insert_chunk_record tbl cid doc_id session_id url pos)
      (if sessHasSession sess session_id then sessAddChunk sess session_id cid
       else sess)

/-- `doc_id = doc_id or stable_doc_id(url)` (Python truthiness: a `None` or
empty id falls back to the digest of the url with the default empty title). -/
def resolveDocId (url : String) (doc_id? : Option String) : String :=
  match doc_id? with
  | some d => if d = "" then stable_doc_id url else d
  | none => stable_doc_id url

/-- `summarize_article(article_text, url, session_id, doc_id)`.  The
deterministic `text_splitter.split_text` (external library) is the
parameter `split`; the language model's summary reply (or the literal
failure placeholder its handler substitutes) is the parameter
`summaryText`.  Returns the summary and the updated stores. -/
def summarize_article (split : String → List String) (summaryText : String)
    (article_text url session_id : String) (doc_id? : Option String)
    (st : IngestState) : String × IngestState :=
  if (strStrip article_text).length < MIN_ARTICLE_CHARS then
    ("Skipped (insufficient content).", st)
  else
    let doc_id := resolveDocId url doc_id?
    let chunks := split article_text
    let acc := chunkDedupLoop doc_id url session_id st.table chunks.enum
      ⟨st.sessions, [], []⟩
    if acc.docs_to_add ≠ [] then
      let vector := st.vector ++ acc.docs_to_add
      let rec' := recordAddedChunks doc_id session_id url
        acc.added_chunk_ids st.table acc.sessions
      (summaryText, ⟨vector, rec'.1, rec'.2⟩)
    else
      (summaryText, ⟨st.vector, st.table, acc.sessions⟩)

theorem sessAddEntry_fst (sid cid : String) (p : String × List String) :
    (sessAddEntry sid cid p).1 = p.1 := by
  unfold sessAddEntry
  repeat' split
  all_goals rfl

theorem find_sessAddChunk (m : SessMap) (sid cid s' : String) :
    (sessAddChunk m sid cid).find? (fun q => q.1 == s') =
      (m.find? (fun q => q.1 == s')).map (sessAddEntry sid cid) := by
  induction m with
  | nil => rfl
  | cons p m ih =>
    simp only [sessAddChunk, List.map_cons, List.find?]
    rw [sessAddEntry_fst]
    by_cases h : p.1 == s'
    · simp [h]
    · simp only [h]
      exact ih

theorem sessHasSession_addChunk (m : SessMap) (sid cid s' : String) :
    sessHasSession (sessAddChunk m sid cid) s' = sessHasSession m s' := by
  simp [sessHasSession, sessLookup, find_sessAddChunk]

theorem sessAddEntry_contains_mono (sid cid c : String)
    (p : String × List String) (h : p.2.contains c = true) :
    (sessAddEntry sid cid p).2.contains c = true := by
  have hc : c ∈ p.2 := by simpa using h
  unfold sessAddEntry
  repeat' split
  · exact h
  · simp only [List.contains_cons]
    simp [hc]
  · exact h

theorem sessHasChunk_addChunk_mono (m : SessMap) (sid cid s' c : String)
    (h : sessHasChunk m s' c = true) :
    sessHasChunk (sessAddChunk m sid cid) s' c = true := by
  unfold sessHasChunk sessLookup at *
  rw [find_sessAddChunk]
  rcases hf : m.find? (fun q => q.1 == s') with _ | p
  · rw [hf] at h
    exact Bool.noConfusion h
  · rw [hf] at h ⊢
    simp only [Option.map_some'] at h ⊢
    exact sessAddEntry_contains_mono sid cid c p h

theorem sessHasChunk_addChunk_self (m : SessMap) (sid cid : String)
    (h : sessHasSession m sid = true) :
    sessHasChunk (sessAddChunk m sid cid) sid cid = true := by
  unfold sessHasSession sessLookup at h
  rcases hf : m.find? (fun q => q.1 == sid) with _ | p
  · rw [hf] at h
    exact Bool.noConfusion h
  · have hfst : (p.1 == sid) = true := by
      have h' := List.find?_some hf
      simpa using h'
    unfold sessHasChunk sessLookup
    rw [find_sessAddChunk, hf]
    simp only [Option.map_some']
    unfold sessAddEntry
    rw [hfst]
    by_cases hc : cid ∈ p.2
    · simp [hc]
    · simp [hc]

theorem chunkDedupLoop_hasSession (doc_id url sid : String)
    (table : ChunksTable) (l : List (Nat × String)) (s' : String) :
    ∀ acc, sessHasSession (chunkDedupLoop doc_id url sid table l acc).sessions s' =
      sessHasSession acc.sessions s' := by
  induction l with
  | nil => intro acc; rfl
  | cons hd tl ih =>
    intro acc
    obtain ⟨idx, chunk⟩ := hd
    simp only [chunkDedupLoop]
    split
    · exact ih acc
    · split
      · rw [ih]
        dsimp only
        split
        · rw [sessHasSession_addChunk]
        · rfl
      · rw [ih]

theorem chunkDedupLoop_chunk_mono (doc_id url sid : String)
    (table : ChunksTable) (l : List (Nat × String)) (s' c : String) :
    ∀ acc, sessHasChunk acc.sessions s' c = true →
      sessHasChunk (chunkDedupLoop doc_id url sid table l acc).sessions s' c = true := by
  induction l with
  | nil => intro acc h; exact h
  | cons hd tl ih =>
    intro acc h
    obtain ⟨idx, chunk⟩ := hd
    simp only [chunkDedupLoop]
    split
    · exact ih acc h
    · split
      · apply ih
        dsimp only
        split
        · exact sessHasChunk_addChunk_mono _ _ _ _ _ h
        · exact h
      · exact ih _ h

theorem chunkDedupLoop_added_mono (doc_id url sid : String)
    (table : ChunksTable) (l : List (Nat × String)) (x : String × Nat) :
    ∀ acc, x ∈ acc.added_chunk_ids →
      x ∈ (chunkDedupLoop doc_id url sid table l acc).added_chunk_ids := by
  induction l with
  | nil => intro acc h; exact h
  | cons hd tl ih =>
    intro acc h
    obtain ⟨idx, chunk⟩ := hd
    simp only [chunkDedupLoop]
    split
    · exact ih acc h
    · split
      · exact ih _ h
      · apply ih
        dsimp only
        exact List.mem_append_left _ h

theorem chunkDedupLoop_count (doc_id url sid : String)
    (table : ChunksTable) (l : List (Nat × String)) :
    ∀ acc, (chunkDedupLoop doc_id url sid table l acc).docs_to_add.length +
        acc.added_chunk_ids.length =
      (chunkDedupLoop doc_id url sid table l acc).added_chunk_ids.length +
        acc.docs_to_add.length := by
  induction l with
  | nil => intro acc; simp only [chunkDedupLoop]; omega
  | cons hd tl ih =>
    intro acc
    obtain ⟨idx, chunk⟩ := hd
    simp only [chunkDedupLoop]
    split
    · exact ih acc
    · split
      · exact ih _
      · have h := ih { acc with
          docs_to_add := acc.docs_to_add ++
            [{ page_content := chunk,
               metadata := { session_id := some sid,
                             doc_id := some doc_id, url := some url,
                             position := some idx,
                             doc_type := some "article_chunk",
                             chunk_id := some (chunk_id_from_content chunk doc_id idx) } }],
          added_chunk_ids := acc.added_chunk_ids ++
            [(chunk_id_from_content chunk doc_id idx, idx)] }
        simp only [List.length_append, List.length_cons, List.length_nil] at h ⊢
        omega

theorem chunkDedupLoop_covers (doc_id url sid : String)
    (table : ChunksTable) (l : List (Nat × String)) :
    ∀ acc, sessHasSession acc.sessions sid = true →
      ∀ p ∈ l,
        sessHasChunk (chunkDedupLoop doc_id url sid table l acc).sessions sid
          (chunk_id_from_content p.2 doc_id p.1) = true ∨
        (chunk_id_from_content p.2 doc_id p.1, p.1) ∈
          (chunkDedupLoop doc_id url sid table l acc).added_chunk_ids := by
  induction l with
  | nil => intro acc _ p hp; exact absurd hp (List.not_mem_nil p)
  | cons hd tl ih =>
    intro acc hreg p hp
    obtain ⟨idx, chunk⟩ := hd
    rcases List.mem_cons.mp hp with heq | hmem
    · subst heq
      simp only [chunkDedupLoop]
      by_cases h1 : (sessHasSession acc.sessions sid &&
          sessHasChunk acc.sessions sid
            (chunk_id_from_content chunk doc_id idx)) = true
      · rw [if_pos h1]
        left
        exact chunkDedupLoop_chunk_mono doc_id url sid table tl sid _ acc
          (Bool.and_elim_right h1)
      · rw [if_neg h1]
        by_cases h2 : chunk_exists_for_session table
            (chunk_id_from_content chunk doc_id idx) sid = true
        · rw [if_pos h2]
          left
          apply chunkDedupLoop_chunk_mono
          dsimp only
          rw [if_pos hreg]
          exact sessHasChunk_addChunk_self _ _ _ hreg
        · rw [if_neg h2]
          right
          apply chunkDedupLoop_added_mono
          dsimp only
          exact List.mem_append_right _ (by simp)
    · simp only [chunkDedupLoop]
      by_cases h1 : (sessHasSession acc.sessions sid &&
          sessHasChunk acc.sessions sid
            (chunk_id_from_content chunk doc_id idx)) = true
      · rw [if_pos h1]
        exact ih acc hreg p hmem
      · rw [if_neg h1]
        by_cases h2 : chunk_exists_for_session table
            (chunk_id_from_content chunk doc_id idx) sid = true
        · rw [if_pos h2]
          apply ih _ ?_ p hmem
          dsimp only
          rw [if_pos hreg, sessHasSession_addChunk]
          exact hreg
        · rw [if_neg h2]
          refine ih _ ?_ p hmem
          exact hreg

theorem chunkDedupLoop_all_hits (doc_id url sid : String)
    (table : ChunksTable) (l : List (Nat × String)) :
    ∀ acc, (∀ p ∈ l,
        (sessHasSession acc.sessions sid &&
          sessHasChunk acc.sessions sid
            (chunk_id_from_content p.2 doc_id p.1)) = true) →
      chunkDedupLoop doc_id url sid table l acc = acc := by
  induction l with
  | nil => intro acc _; rfl
  | cons hd tl ih =>
    intro acc h
    obtain ⟨idx, chunk⟩ := hd
    have hhd := h (idx, chunk) (List.mem_cons_self _ _)
    simp only [chunkDedupLoop]
    rw [if_pos hhd]
    exact ih acc (fun p hp => h p (List.mem_cons_of_mem _ hp))

theorem recordAddedChunks_hasSession (doc_id sid url : String)
    (lst : List (String × Nat)) (s' : String) :
    ∀ tbl sess,
      sessHasSession (recordAddedChunks doc_id sid url lst tbl sess).2 s' =
        sessHasSession sess s' := by
  induction lst with
  | nil => intro tbl sess; rfl
  | cons hd tl ih =>
    intro tbl sess
    obtain ⟨cid, pos⟩ := hd
    simp only [recordAddedChunks]
    rw [ih]
    split
    · rw [sessHasSession_addChunk]
    · rfl

theorem recordAddedChunks_chunk_mono (doc_id sid url : String)
    (lst : List (String × Nat)) (s' c : String) :
    ∀ tbl sess, sessHasChunk sess s' c = true →
      sessHasChunk (recordAddedChunks doc_id sid url lst tbl sess).2 s' c = true := by
  induction lst with
  | nil => intro tbl sess h; exact h
  | cons hd tl ih =>
    intro tbl sess h
    obtain ⟨cid, pos⟩ := hd
    simp only [recordAddedChunks]
    apply ih
    split
    · exact sessHasChunk_addChunk_mono _ _ _ _ _ h
    · exact h

theorem recordAddedChunks_covers (doc_id sid url : String)
    (lst : List (String × Nat)) :
    ∀ tbl sess, sessHasSession sess sid = true →
      ∀ x ∈ lst,
        sessHasChunk (recordAddedChunks doc_id sid url lst tbl sess).2 sid x.1 = true := by
  induction lst with
  | nil => intro tbl sess _ x hx; exact absurd hx (List.not_mem_nil x)
  | cons hd tl ih =>
    intro tbl sess hreg x hx
    obtain ⟨cid, pos⟩ := hd
    rcases List.mem_cons.mp hx with heq | hmem
    · subst heq
      simp only [recordAddedChunks]
      apply recordAddedChunks_chunk_mono
      rw [if_pos hreg]
      exact sessHasChunk_addChunk_self _ _ _ hreg
    · simp only [recordAddedChunks]
      refine ih _ _ ?_ x hmem
      rw [if_pos hreg, sessHasSession_addChunk]
      exact hreg

/-- After a (long-enough) ingestion with the session registered in the
in-memory store, the session stays registered and every chunk id of the
article is in the session's in-memory chunk-id set. -/
theorem summarize_article_covers (split : String → List String) (sum : String)
    (text url sid : String) (did? : Option String) (st : IngestState)
    (hreg : sessHasSession st.sessions sid = true) :
    sessHasSession (summarize_article split sum text url sid did? st).2.sessions
      sid = true ∧
    (¬ (strStrip text).length < MIN_ARTICLE_CHARS →
      ∀ p ∈ (split text).enum,
        sessHasChunk (summarize_article split sum text url sid did? st).2.sessions
          sid (chunk_id_from_content p.2 (resolveDocId url did?) p.1) = true) := by
  unfold summarize_article
  by_cases hlen : (strStrip text).length < MIN_ARTICLE_CHARS
  · rw [if_pos hlen]
    exact ⟨hreg, fun h => absurd hlen h⟩
  · rw [if_neg hlen]
    dsimp only
    by_cases hne : (chunkDedupLoop (resolveDocId url did?) url sid st.table
        (split text).enum ⟨st.sessions, [], []⟩).docs_to_add ≠ []
    · rw [if_pos hne]
      constructor
      · dsimp only
        rw [recordAddedChunks_hasSession, chunkDedupLoop_hasSession]
        exact hreg
      · intro _ p hp
        dsimp only
        have hcov := chunkDedupLoop_covers (resolveDocId url did?) url sid
          st.table (split text).enum ⟨st.sessions, [], []⟩ hreg p hp
        rcases hcov with hmem | hadd
        · exact recordAddedChunks_chunk_mono _ _ _ _ _ _ _ _ hmem
        · apply recordAddedChunks_covers _ _ _ _ _ _ ?_ _ hadd
          rw [chunkDedupLoop_hasSession]
          exact hreg
    · rw [if_neg hne]
      push_neg at hne
      constructor
      · dsimp only
        rw [chunkDedupLoop_hasSession]
        exact hreg
      · intro _ p hp
        dsimp only
        have hcov := chunkDedupLoop_covers (resolveDocId url did?) url sid
          st.table (split text).enum ⟨st.sessions, [], []⟩ hreg p hp
        rcases hcov with hmem | hadd
        · exact hmem
        · exfalso
          have hcnt := chunkDedupLoop_count (resolveDocId url did?) url sid
            st.table (split text).enum ⟨st.sessions, [], []⟩
          rw [hne] at hcnt
          simp only [List.length_nil] at hcnt
          have hlen0 : (chunkDedupLoop (resolveDocId url did?) url sid st.table
              (split text).enum ⟨st.sessions, [], []⟩).added_chunk_ids.length = 0 := by
            omega
          have hz := List.length_eq_zero.mp hlen0
          rw [hz] at hadd
          exact absurd hadd (List.not_mem_nil _)

/-- Claim C4: re-ingesting a byte-identical article into the same session
(with the session registered in the in-memory store, as `ensure_session`
guarantees before any workflow run) adds zero new vector-index documents
and zero new durable chunk records: every chunk id computed on the second
run is found by the in-memory or durable existence check, its re-insertion
is skipped, and the stores are left exactly unchanged. -/
theorem summarize_article_idempotent (split : String → List String)
    (sum₁ sum₂ : String) (text url sid : String) (did? : Option String)
    (st : IngestState) (hreg : sessHasSession st.sessions sid = true) :
    (summarize_article split sum₂ text url sid did?
        (summarize_article split sum₁ text url sid did? st).2).2.vector =
      (summarize_article split sum₁ text url sid did? st).2.vector ∧
    (summarize_article split sum₂ text url sid did?
        (summarize_article split sum₁ text url sid did? st).2).2.table =
      (summarize_article split sum₁ text url sid did? st).2.table ∧
    (summarize_article split sum₂ text url sid did?
        (summarize_article split sum₁ text url sid did? st).2).2 =
      (summarize_article split sum₁ text url sid did? st).2 := by
  have hcov := summarize_article_covers split sum₁ text url sid did? st hreg
  have hmain : (summarize_article split sum₂ text url sid did?
      (summarize_article split sum₁ text url sid did? st).2).2 =
      (summarize_article split sum₁ text url sid did? st).2 := by
    by_cases hlen : (strStrip text).length < MIN_ARTICLE_CHARS
    · conv_lhs => rw [summarize_article, if_pos hlen]
    · have hall := chunkDedupLoop_all_hits (resolveDocId url did?) url sid
        (summarize_article split sum₁ text url sid did? st).2.table
        (split text).enum
        ⟨(summarize_article split sum₁ text url sid did? st).2.sessions, [], []⟩
        (fun p hp => by
          rw [Bool.and_eq_true]
          exact ⟨hcov.1, hcov.2 hlen p hp⟩)
      conv_lhs => rw [summarize_article, if_neg hlen]
      dsimp only
      rw [hall]
      rfl
  exact ⟨congrArg IngestState.vector hmain, congrArg IngestState.table hmain,
    hmain⟩

/-- Witness for C4: a single-chunk splitter, a 200-character article and a
registered session. -/
theorem summarize_article_idempotent_witness :
    (summarize_article (fun t => [t]) "s2"
        (String.mk (List.replicate 200 'a')) "u" "s1" none
        (summarize_article (fun t => [t]) "s1"
          (String.mk (List.replicate 200 'a')) "u" "s1" none
          ⟨[], [], [("s1", [])]⟩).2).2.vector =
      (summarize_article (fun t => [t]) "s1"
        (String.mk (List.replicate 200 'a')) "u" "s1" none
        ⟨[], [], [("s1", [])]⟩).2.vector ∧
    (summarize_article (fun t => [t]) "s2"
        (String.mk (List.replicate 200 'a')) "u" "s1" none
        (summarize_article (fun t => [t]) "s1"
          (String.mk (List.replicate 200 'a')) "u" "s1" none
          ⟨[], [], [("s1", [])]⟩).2).2.table =
      (summarize_article (fun t => [t]) "s1"
        (String.mk (List.replicate 200 'a')) "u" "s1" none
        ⟨[], [], [("s1", [])]⟩).2.table ∧
    (summarize_article (fun t => [t]) "s2"
        (String.mk (List.replicate 200 'a')) "u" "s1" none
        (summarize_article (fun t => [t]) "s1"
          (String.mk (List.replicate 200 'a')) "u" "s1" none
          ⟨[], [], [("s1", [])]⟩).2).2 =
      (summarize_article (fun t => [t]) "s1"
        (String.mk (List.replicate 200 'a')) "u" "s1" none
        ⟨[], [], [("s1", [])]⟩).2 :=
  summarize_article_idempotent (fun t => [t]) "s1" "s2"
    (String.mk (List.replicate 200 'a')) "u" "s1" none
    ⟨[], [], [("s1", [])]⟩ (by decide)

/-! ### Full-research batch (`run_full_research` in
`backend/agents/summarizer.py`)

The per-article language-model summary is the oracle `sumOracle` (a
function of the hit's url and content); the overall-synthesis
language-model call (`generate_overall_summary`) is the oracle
`genOverall` applied to the per-article summaries. -/

/-- The dict returned by `run_full_research`. -/
structure ResearchResult where
  per_article : List PerArticle
  overall : String
deriving DecidableEq, Repr

/-- `not url or not content` is exactly the negation of this. -/
def goodHit (h : Hit) : Bool := strTruthy h.url && strTruthy h.content

/-- The per-hit loop of `run_full_research`, threading the ingest stores
through `summarize_article`. -/
def researchLoop (split : String → List String)
    (sumOracle : String → String → String) (session_id : String) :
    List Hit → IngestState → List PerArticle × IngestState
  | [], st => ([], st)
  | h :: rest, st =>
    let url := h.url
    let title := (pyOrStr h.title (some "")).getD ""
    let content := (pyOrStr h.content (some "")).getD ""
    if strTruthy url = false ∨ content = "" then
      researchLoop split sumOracle session_id rest st
    else
      let doc_id := stable_doc_id (url.getD "") title
      let res := summarize_article split (sumOracle (url.getD "") content)
        content (url.getD "") session_id (some doc_id) st
      let rest' := researchLoop split sumOracle session_id rest res.2
      (⟨doc_id, url.getD "", res.1⟩ :: rest'.1, rest'.2)

/-- `run_full_research(topic, session_id, hits)`. -/
def run_full_research (split : String → List String)
    (sumOracle : String → String → String) (genOverall : List String → String)
    (_topic session_id : String) (hits : List Hit) (st : IngestState) :
    ResearchResult × IngestState :=
  let res := researchLoop split sumOracle session_id hits st
  let overall := if res.1 ≠ [] then genOverall (res.1.map (fun p => p.summary))
    else "No sufficient content to summarize."
  (⟨res.1, overall⟩, res.2)

theorem researchSkip_iff (h : Hit) :
    (strTruthy h.url = false ∨ (pyOrStr h.content (some "")).getD "" = "") ↔
      goodHit h = false := by
  unfold goodHit pyOrStr strTruthy
  by_cases hu : h.url.getD "" = "" <;> by_cases hc : h.content.getD "" = "" <;>
    simp [hu, hc]

/-- Skipping the bad hits inside the loop is the same as filtering them
away beforehand. -/
theorem researchLoop_filter (split : String → List String)
    (sumOracle : String → String → String) (sid : String) (hits : List Hit) :
    ∀ st, researchLoop split sumOracle sid hits st =
      researchLoop split sumOracle sid (hits.filter goodHit) st := by
  induction hits with
  | nil => intro st; rfl
  | cons h rest ih =>
    intro st
    by_cases hg : goodHit h = true
    · rw [List.filter_cons_of_pos hg]
      simp only [researchLoop]
      have hcond : ¬ (strTruthy h.url = false ∨
          (pyOrStr h.content (some "")).getD "" = "") := by
        rw [researchSkip_iff]
        simp [hg]
      rw [if_neg hcond, if_neg hcond]
      rw [ih]
    · have hgf : goodHit h = false := by simpa using hg
      rw [List.filter_cons_of_neg (by simp [hgf])]
      simp only [researchLoop]
      rw [if_pos ((researchSkip_iff h).mpr hgf)]
      exact ih st

/-- Claim C8: hits missing a URL or having empty content are skipped
without error and excluded from the per-article list (processing a hit list
is processing its good-hit sublist); and when no hit is usable the
per-article list is empty, the overall result is the fixed insufficient-
content message, and the result is independent of the synthesis oracle —
no language-model synthesis call is made. -/
theorem run_full_research_spec (split : String → List String)
    (sumOracle : String → String → String) (g₁ g₂ : List String → String)
    (topic sid : String) (hits : List Hit) (st : IngestState) :
    (run_full_research split sumOracle g₁ topic sid hits st =
      run_full_research split sumOracle g₁ topic sid (hits.filter goodHit) st) ∧
    ((∀ h ∈ hits, goodHit h = false) →
      (run_full_research split sumOracle g₁ topic sid hits st).1.per_article = [] ∧
      (run_full_research split sumOracle g₁ topic sid hits st).1.overall =
        "No sufficient content to summarize." ∧
      run_full_research split sumOracle g₁ topic sid hits st =
        run_full_research split sumOracle g₂ topic sid hits st) := by
  constructor
  · unfold run_full_research
    rw [researchLoop_filter]
  · intro hbad
    have hfil : hits.filter goodHit = [] := by
      rw [List.filter_eq_nil_iff]
      intro a ha
      simp [hbad a ha]
    have hloop : researchLoop split sumOracle sid hits st = ([], st) := by
      rw [researchLoop_filter, hfil]
      rfl
    unfold run_full_research
    rw [hloop]
    simp

/-- Witness for C8: a single hit with empty content. -/
theorem run_full_research_spec_witness :
    (run_full_research (fun t => [t]) (fun _ _ => "s") (fun _ => "g1") "t" "s1"
        [{ title := some "T", url := some "http://x", content := some "" }]
        ⟨[], [], []⟩ =
      run_full_research (fun t => [t]) (fun _ _ => "s") (fun _ => "g1") "t" "s1"
        ([{ title := some "T", url := some "http://x",
            content := some "" }].filter goodHit) ⟨[], [], []⟩) ∧
    ((run_full_research (fun t => [t]) (fun _ _ => "s") (fun _ => "g1") "t" "s1"
        [{ title := some "T", url := some "http://x", content := some "" }]
        ⟨[], [], []⟩).1.per_article = [] ∧
      (run_full_research (fun t => [t]) (fun _ _ => "s") (fun _ => "g1") "t" "s1"
        [{ title := some "T", url := some "http://x", content := some "" }]
        ⟨[], [], []⟩).1.overall = "No sufficient content to summarize." ∧
      run_full_research (fun t => [t]) (fun _ _ => "s") (fun _ => "g1") "t" "s1"
        [{ title := some "T", url := some "http://x", content := some "" }]
        ⟨[], [], []⟩ =
      run_full_research (fun t => [t]) (fun _ _ => "s") (fun _ => "g2") "t" "s1"
        [{ title := some "T", url := some "http://x", content := some "" }]
        ⟨[], [], []⟩) :=
  have h := run_full_research_spec (fun t => [t]) (fun _ _ => "s")
    (fun _ => "g1") (fun _ => "g2") "t" "s1"
    [{ title := some "T", url := some "http://x", content := some "" }]
    ⟨[], [], []⟩
  ⟨h.1, h.2 (by decide)⟩
